import Mathlib

/-
Verification of the transaction combinator library of the sqlx-test
repository (src/main.rs and src/transaction.rs).

The Rust trait Tx<Ctx> gives every transaction value a single one-shot
operation run(self, ctx: &mut Ctx) -> Result<Item, Err>.  The exclusive
mutable borrow of the context is embedded by explicit state passing: a
transaction value is a function from the context to the produced outcome
paired with the updated context.  The blanket impl of Tx for any
FnOnce(&mut Ctx) -> Result<T, E> makes the function type itself the type
of transaction values, so the lift is the identity.  Rust Ok/Err are
written Success/Failure, the vocabulary of the specification.

Each combinator exists in the source three times: a free function
returning a closure, a struct, and a trait method constructing that
struct whose Tx impl gives it a run.  The free-function closures and the
struct run impls are transcribed separately below (the struct bodies as
the Tx.* methods), so that their agreement is a theorem, not a
modelling choice.
-/

namespace SqlxTest

/-- The two-variant result of running a transaction value: Success holds
the Item payload (Rust Ok), Failure the Err payload (Rust Err). -/
inductive Outcome (T : Type) (E : Type) where
  | Success : T → Outcome T E
  | Failure : E → Outcome T E
deriving DecidableEq

/-- Pointwise action of a pure function on the Success payload of an
Outcome, the Failure payload untouched; used to state map functoriality. -/
def Outcome.map {T U E : Type} (f : T → U) : Outcome T E → Outcome U E
  | Outcome.Success x => Outcome.Success (f x)
  | Outcome.Failure e => Outcome.Failure e

/-- A transaction value over context Ctx with success payload T and error
payload E.  run(self, ctx: &mut Ctx) -> Result<T, E> becomes a state
transformer: the outcome together with the context after the run. -/
def Tx (Ctx T E : Type) : Type := Ctx → Outcome T E × Ctx

/-- Tx::run of the blanket impl for closures in main.rs: running a lifted
function applies it to the context. -/
def Tx.run {Ctx T E : Type} (t : Tx Ctx T E) (ctx : Ctx) : Outcome T E × Ctx := t ctx

/-- The implicit lift from a one-shot context function to a transaction
value (the blanket impl of Tx in main.rs); the identity in this embedding. -/
def lift {Ctx T E : Type} (f : Ctx → Outcome T E × Ctx) : Tx Ctx T E := f

/-- A leaf that returns Success x without touching the context (the ok
leaf of the testable properties in the specification). -/
def ok {Ctx T E : Type} (x : T) : Tx Ctx T E := fun ctx => (Outcome.Success x, ctx)

/-- Map::run from main.rs: on Success apply f to the payload, on Failure
propagate the error unchanged. -/
def Tx.map {Ctx T U E : Type} (tx1 : Tx Ctx T E) (f : T → U) : Tx Ctx U E :=
  fun ctx =>
    match Tx.run tx1 ctx with
    | (Outcome.Success x, c) => (Outcome.Success (f x), c)
    | (Outcome.Failure e, c) => (Outcome.Failure e, c)

/-- AndThen::run from main.rs: on Success run the continuation f x on the
same context, on Failure propagate the error unchanged. -/
def Tx.and_then {Ctx T U E : Type} (tx1 : Tx Ctx T E) (f : T → Tx Ctx U E) : Tx Ctx U E :=
  fun ctx =>
    match Tx.run tx1 ctx with
    | (Outcome.Success x, c) => Tx.run (f x) c
    | (Outcome.Failure e, c) => (Outcome.Failure e, c)

/-- Then::run from main.rs (the combinator is named then in the source;
then is a reserved word here): feed the whole outcome of the source to f
and run the resulting transaction on the same context. -/
def Tx.then_ {Ctx T U E : Type} (tx1 : Tx Ctx T E) (f : Outcome T E → Tx Ctx U E) :
    Tx Ctx U E :=
  fun ctx =>
    match Tx.run tx1 ctx with
    | (r, c) => Tx.run (f r) c

/-- OrElse::run from main.rs: on Success propagate unchanged, on Failure
run the fallback f e on the same context. -/
def Tx.or_else {Ctx T E : Type} (tx1 : Tx Ctx T E) (f : E → Tx Ctx T E) : Tx Ctx T E :=
  fun ctx =>
    match Tx.run tx1 ctx with
    | (Outcome.Success t, c) => (Outcome.Success t, c)
    | (Outcome.Failure e, c) => Tx.run (f e) c

/-- Join::run from main.rs, reached through the postfix method Tx::join,
whose bounds force the second source to share the Item type of the
receiver: run both sources in order on the same context; both Success
give the pair, otherwise the leftmost Failure wins. -/
def Tx.join {Ctx T E : Type} (tx1 : Tx Ctx T E) (tx2 : Tx Ctx T E) : Tx Ctx (T × T) E :=
  fun ctx =>
    match Tx.run tx1 ctx with
    | (r1, c1) =>
      match Tx.run tx2 c1 with
      | (r2, c2) =>
        match r1, r2 with
        | Outcome.Success t, Outcome.Success u => (Outcome.Success (t, u), c2)
        | Outcome.Failure e, _ => (Outcome.Failure e, c2)
        | _, Outcome.Failure e => (Outcome.Failure e, c2)

/-- Join3::run reached through the postfix method Tx::join3 (all Item
types equal): three sources in order, leftmost Failure wins. -/
def Tx.join3 {Ctx T E : Type} (tx1 tx2 tx3 : Tx Ctx T E) : Tx Ctx (T × T × T) E :=
  fun ctx =>
    match Tx.run tx1 ctx with
    | (r1, c1) =>
      match Tx.run tx2 c1 with
      | (r2, c2) =>
        match Tx.run tx3 c2 with
        | (r3, c3) =>
          match r1, r2, r3 with
          | Outcome.Success t, Outcome.Success u, Outcome.Success v =>
              (Outcome.Success (t, u, v), c3)
          | Outcome.Failure e, _, _ => (Outcome.Failure e, c3)
          | _, Outcome.Failure e, _ => (Outcome.Failure e, c3)
          | _, _, Outcome.Failure e => (Outcome.Failure e, c3)

/-- Join4::run reached through the postfix method Tx::join4 (all Item
types equal): four sources in order, leftmost Failure wins. -/
def Tx.join4 {Ctx T E : Type} (tx1 tx2 tx3 tx4 : Tx Ctx T E) :
    Tx Ctx (T × T × T × T) E :=
  fun ctx =>
    match Tx.run tx1 ctx with
    | (r1, c1) =>
      match Tx.run tx2 c1 with
      | (r2, c2) =>
        match Tx.run tx3 c2 with
        | (r3, c3) =>
          match Tx.run tx4 c3 with
          | (r4, c4) =>
            match r1, r2, r3, r4 with
            | Outcome.Success t, Outcome.Success u, Outcome.Success v, Outcome.Success w =>
                (Outcome.Success (t, u, v, w), c4)
            | Outcome.Failure e, _, _, _ => (Outcome.Failure e, c4)
            | _, Outcome.Failure e, _, _ => (Outcome.Failure e, c4)
            | _, _, Outcome.Failure e, _ => (Outcome.Failure e, c4)
            | _, _, _, Outcome.Failure e => (Outcome.Failure e, c4)

/-- MapErr::run from main.rs: on Success propagate unchanged, on Failure
apply f to the error. -/
def Tx.map_err {Ctx T E E2 : Type} (tx1 : Tx Ctx T E) (f : E → E2) : Tx Ctx T E2 :=
  fun ctx =>
    match Tx.run tx1 ctx with
    | (Outcome.Success t, c) => (Outcome.Success t, c)
    | (Outcome.Failure e, c) => (Outcome.Failure (f e), c)

/-- TryMap::run from main.rs: on Success use the outcome of f t directly,
on Failure propagate unchanged. -/
def Tx.try_map {Ctx T U E : Type} (tx1 : Tx Ctx T E) (f : T → Outcome U E) : Tx Ctx U E :=
  fun ctx =>
    match Tx.run tx1 ctx with
    | (Outcome.Success t, c) => (f t, c)
    | (Outcome.Failure e, c) => (Outcome.Failure e, c)

/-- Recover::run from main.rs: on Success propagate unchanged, on Failure
return Success (f e). -/
def Tx.recover {Ctx T E : Type} (tx1 : Tx Ctx T E) (f : E → T) : Tx Ctx T E :=
  fun ctx =>
    match Tx.run tx1 ctx with
    | (Outcome.Success t, c) => (Outcome.Success t, c)
    | (Outcome.Failure e, c) => (Outcome.Success (f e), c)

/-- TryRecover::run from main.rs: on Success propagate unchanged, on
Failure use the outcome of f e, which may carry a new error type. -/
def Tx.try_recover {Ctx T E E2 : Type} (tx1 : Tx Ctx T E) (f : E → Outcome T E2) :
    Tx Ctx T E2 :=
  fun ctx =>
    match Tx.run tx1 ctx with
    | (Outcome.Success t, c) => (Outcome.Success t, c)
    | (Outcome.Failure e, c) => (f e, c)

/-- Abort::run from main.rs: on Success turn the payload into a Failure
via f, on Failure propagate unchanged. -/
def Tx.abort {Ctx T E : Type} (tx1 : Tx Ctx T E) (f : T → E) : Tx Ctx T E :=
  fun ctx =>
    match Tx.run tx1 ctx with
    | (Outcome.Success t, c) => (Outcome.Failure (f t), c)
    | (Outcome.Failure e, c) => (Outcome.Failure e, c)

/-- TryAbort::run from main.rs: on Success use the outcome of f t, on
Failure propagate unchanged. -/
def Tx.try_abort {Ctx T E : Type} (tx1 : Tx Ctx T E) (f : T → Outcome T E) : Tx Ctx T E :=
  fun ctx =>
    match Tx.run tx1 ctx with
    | (Outcome.Success t, c) => (f t, c)
    | (Outcome.Failure e, c) => (Outcome.Failure e, c)

/-- The free function map from main.rs: the closure it returns, lifted to
a transaction by the blanket impl. -/
def map {Ctx T U E : Type} (tx1 : Tx Ctx T E) (f : T → U) : Tx Ctx U E :=
  lift fun ctx =>
    match Tx.run tx1 ctx with
    | (Outcome.Success x, c) => (Outcome.Success (f x), c)
    | (Outcome.Failure e, c) => (Outcome.Failure e, c)

/-- The free function and_then from main.rs. -/
def and_then {Ctx T U E : Type} (tx1 : Tx Ctx T E) (f : T → Tx Ctx U E) : Tx Ctx U E :=
  lift fun ctx =>
    match Tx.run tx1 ctx with
    | (Outcome.Success x, c) => Tx.run (f x) c
    | (Outcome.Failure e, c) => (Outcome.Failure e, c)

/-- The free function then from main.rs (renamed, reserved word). -/
def then_ {Ctx T U E : Type} (tx1 : Tx Ctx T E) (f : Outcome T E → Tx Ctx U E) :
    Tx Ctx U E :=
  lift fun ctx =>
    match Tx.run tx1 ctx with
    | (r, c) => Tx.run (f r) c

/-- The free function or_else from main.rs. -/
def or_else {Ctx T E : Type} (tx1 : Tx Ctx T E) (f : E → Tx Ctx T E) : Tx Ctx T E :=
  lift fun ctx =>
    match Tx.run tx1 ctx with
    | (Outcome.Success t, c) => (Outcome.Success t, c)
    | (Outcome.Failure e, c) => Tx.run (f e) c

/-- The free function join from main.rs; unlike the postfix method it lets
the two sources carry distinct Item types T and U and produces the pair. -/
def join {Ctx T U E : Type} (tx1 : Tx Ctx T E) (tx2 : Tx Ctx U E) : Tx Ctx (T × U) E :=
  lift fun ctx =>
    match Tx.run tx1 ctx with
    | (r1, c1) =>
      match Tx.run tx2 c1 with
      | (r2, c2) =>
        match r1, r2 with
        | Outcome.Success t, Outcome.Success u => (Outcome.Success (t, u), c2)
        | Outcome.Failure e, _ => (Outcome.Failure e, c2)
        | _, Outcome.Failure e => (Outcome.Failure e, c2)

/-- The free function join3 from main.rs, heterogeneous Item types. -/
def join3 {Ctx T U V E : Type} (tx1 : Tx Ctx T E) (tx2 : Tx Ctx U E) (tx3 : Tx Ctx V E) :
    Tx Ctx (T × U × V) E :=
  lift fun ctx =>
    match Tx.run tx1 ctx with
    | (r1, c1) =>
      match Tx.run tx2 c1 with
      | (r2, c2) =>
        match Tx.run tx3 c2 with
        | (r3, c3) =>
          match r1, r2, r3 with
          | Outcome.Success t, Outcome.Success u, Outcome.Success v =>
              (Outcome.Success (t, u, v), c3)
          | Outcome.Failure e, _, _ => (Outcome.Failure e, c3)
          | _, Outcome.Failure e, _ => (Outcome.Failure e, c3)
          | _, _, Outcome.Failure e => (Outcome.Failure e, c3)

/-- The free function join4 from main.rs, heterogeneous Item types. -/
def join4 {Ctx T U V W E : Type} (tx1 : Tx Ctx T E) (tx2 : Tx Ctx U E)
    (tx3 : Tx Ctx V E) (tx4 : Tx Ctx W E) : Tx Ctx (T × U × V × W) E :=
  lift fun ctx =>
    match Tx.run tx1 ctx with
    | (r1, c1) =>
      match Tx.run tx2 c1 with
      | (r2, c2) =>
        match Tx.run tx3 c2 with
        | (r3, c3) =>
          match Tx.run tx4 c3 with
          | (r4, c4) =>
            match r1, r2, r3, r4 with
            | Outcome.Success t, Outcome.Success u, Outcome.Success v, Outcome.Success w =>
                (Outcome.Success (t, u, v, w), c4)
            | Outcome.Failure e, _, _, _ => (Outcome.Failure e, c4)
            | _, Outcome.Failure e, _, _ => (Outcome.Failure e, c4)
            | _, _, Outcome.Failure e, _ => (Outcome.Failure e, c4)
            | _, _, _, Outcome.Failure e => (Outcome.Failure e, c4)

/-- The free function map_err from main.rs. -/
def map_err {Ctx T E E2 : Type} (tx1 : Tx Ctx T E) (f : E → E2) : Tx Ctx T E2 :=
  lift fun ctx =>
    match Tx.run tx1 ctx with
    | (Outcome.Success t, c) => (Outcome.Success t, c)
    | (Outcome.Failure e, c) => (Outcome.Failure (f e), c)

/-- The free function try_map from main.rs. -/
def try_map {Ctx T U E : Type} (tx1 : Tx Ctx T E) (f : T → Outcome U E) : Tx Ctx U E :=
  lift fun ctx =>
    match Tx.run tx1 ctx with
    | (Outcome.Success t, c) => (f t, c)
    | (Outcome.Failure e, c) => (Outcome.Failure e, c)

/-- The free function recover from main.rs. -/
def recover {Ctx T E : Type} (tx1 : Tx Ctx T E) (f : E → T) : Tx Ctx T E :=
  lift fun ctx =>
    match Tx.run tx1 ctx with
    | (Outcome.Success t, c) => (Outcome.Success t, c)
    | (Outcome.Failure e, c) => (Outcome.Success (f e), c)

/-- The free function try_recover from main.rs. -/
def try_recover {Ctx T E E2 : Type} (tx1 : Tx Ctx T E) (f : E → Outcome T E2) :
    Tx Ctx T E2 :=
  lift fun ctx =>
    match Tx.run tx1 ctx with
    | (Outcome.Success t, c) => (Outcome.Success t, c)
    | (Outcome.Failure e, c) => (f e, c)

/-- The free function abort from main.rs. -/
def abort {Ctx T E : Type} (tx1 : Tx Ctx T E) (f : T → E) : Tx Ctx T E :=
  lift fun ctx =>
    match Tx.run tx1 ctx with
    | (Outcome.Success t, c) => (Outcome.Failure (f t), c)
    | (Outcome.Failure e, c) => (Outcome.Failure e, c)

/-- The free function try_abort from main.rs. -/
def try_abort {Ctx T E : Type} (tx1 : Tx Ctx T E) (f : T → Outcome T E) : Tx Ctx T E :=
  lift fun ctx =>
    match Tx.run tx1 ctx with
    | (Outcome.Success t, c) => (f t, c)
    | (Outcome.Failure e, c) => (Outcome.Failure e, c)

/-- WithCtx from transaction.rs: wraps a Fn closure over a shared context
reference (a Fn, not a FnOnce: callable any number of times). -/
structure WithCtx (Ctx T E : Type) where
  f : Ctx → Outcome T E

/-- with_ctx from transaction.rs. -/
def with_ctx {Ctx T E : Type} (f : Ctx → Outcome T E) : WithCtx Ctx T E :=
  WithCtx.mk f

/-- Transaction::run as implemented for WithCtx in transaction.rs: the
receiver is a shared reference (the value is not consumed) and the
context is a shared reference (no mutation), so it simply applies f. -/
def WithCtx.run {Ctx T E : Type} (w : WithCtx Ctx T E) (ctx : Ctx) : Outcome T E :=
  w.f ctx

/-- Invoking Transaction::run n times in a row on the same WithCtx value,
collecting the outcomes; expressible because the trait takes the receiver
and the context by shared reference. -/
def runTimes {Ctx T E : Type} : Nat → WithCtx Ctx T E → Ctx → List (Outcome T E)
  | 0, _, _ => []
  | Nat.succ n, w, ctx => WithCtx.run w ctx :: runTimes n w ctx

/-- Modelled from the spec: the connection-pool collaborator of the
runner, absent from src/ (only the sqlx example programs under src/ call
begin, commit and rollback directly).  beginTx obtains a fresh transaction
handle or fails with an acquisition error already translated into the
domain error type; commit and rollback finalize a handle. -/
structure TxPool (Ctx E : Type) where
  beginTx : Outcome Ctx E
  commit : Ctx → Outcome Unit E
  rollback : Ctx → Outcome Unit E

/-- A concrete instrumented leaf for witnesses: appends 1 to the ledger
context and succeeds with 1. -/
def emitOk : Tx (List Nat) Nat Nat := fun l => (Outcome.Success 1, l ++ [1])

/-- A concrete instrumented leaf for witnesses: appends 2 to the ledger
context and fails with 9. -/
def emitFail : Tx (List Nat) Nat Nat := fun l => (Outcome.Failure 9, l ++ [2])

/-- A concrete instrumented continuation for witnesses: appends 3 to the
ledger context and succeeds with its argument plus one. -/
def emitK : Nat → Tx (List Nat) Nat Nat := fun x => fun l => (Outcome.Success (x + 1), l ++ [3])

/-- Modelled from the spec: the runner run_in_transaction(pool, tx),
absent from src/.  Acquire a handle from the pool (acquisition failure is
returned as a Failure); run the composed transaction value on it; on
Success t commit, a commit error becoming the returned Failure and
otherwise Success t; on Failure e roll back, the rollback outcome being
subordinate: whatever it is, Failure e is returned. -/
def run_in_transaction {Ctx E T : Type} (pool : TxPool Ctx E) (tx : Tx Ctx T E) :
    Outcome T E :=
  match pool.beginTx with
  | Outcome.Failure pe => Outcome.Failure pe
  | Outcome.Success ctx0 =>
    match Tx.run tx ctx0 with
    | (Outcome.Success t, ctx1) =>
      match pool.commit ctx1 with
      | Outcome.Success _ => Outcome.Success t
      | Outcome.Failure ce => Outcome.Failure ce
    | (Outcome.Failure e, ctx1) =>
      match pool.rollback ctx1 with
      | _ => Outcome.Failure e

/-- A concrete pool for witnesses: acquisition, commit and rollback all
succeed. -/
def poolOk : TxPool Unit Nat :=
  TxPool.mk (Outcome.Success ()) (fun _ => Outcome.Success ()) (fun _ => Outcome.Success ())

/-- A concrete pool for witnesses whose commit fails with 7. -/
def poolBadCommit : TxPool Unit Nat :=
  TxPool.mk (Outcome.Success ()) (fun _ => Outcome.Failure 7) (fun _ => Outcome.Success ())

/-- A concrete pool for witnesses whose rollback fails with 8. -/
def poolBadRollback : TxPool Unit Nat :=
  TxPool.mk (Outcome.Success ()) (fun _ => Outcome.Success ()) (fun _ => Outcome.Failure 8)

/-- A concrete pool for witnesses whose acquisition fails with 5. -/
def poolNoAcquire : TxPool Unit Nat :=
  TxPool.mk (Outcome.Failure 5) (fun _ => Outcome.Success ()) (fun _ => Outcome.Success ())

/-- A concrete failing leaf over the Unit context for witnesses. -/
def failLeaf : Tx Unit Nat Nat := fun c => (Outcome.Failure 4, c)

@[simp] theorem Tx.run_def {Ctx T E : Type} (t : Tx Ctx T E) (ctx : Ctx) :
    Tx.run t ctx = t ctx := rfl

@[simp] theorem lift_def {Ctx T E : Type} (f : Ctx → Outcome T E × Ctx) :
    lift f = f := rfl

/-- C6: Map is functorial over outcomes: for every transaction t, pure
function f and context ctx, running t.map f on ctx yields exactly the
outcome of running t on ctx with f applied pointwise to the Success
payload, a Failure propagated unchanged, and the resulting context is the
one produced by t alone. -/
theorem map_functorial {Ctx T U E : Type} (t : Tx Ctx T E) (f : T → U) (ctx : Ctx) :
    Tx.run (Tx.map t f) ctx =
      (Outcome.map f (Tx.run t ctx).1, (Tx.run t ctx).2) := by
  simp only [Tx.map, Tx.run_def]
  rcases h : t ctx with ⟨r, c⟩
  cases r <;> simp [Outcome.map]

/-- C7: Recovery with or_else is associative: recovering t with a constant
fallback u and then with a constant fallback v runs exactly like
recovering t with the fallback u-recovered-by-v, on every context. -/
theorem or_else_assoc {Ctx T E : Type} (t u v : Tx Ctx T E) (ctx : Ctx) :
    Tx.run (Tx.or_else (Tx.or_else t (fun _ => u)) (fun _ => v)) ctx =
      Tx.run (Tx.or_else t (fun _ => Tx.or_else u (fun _ => v))) ctx := by
  simp only [Tx.or_else, Tx.run_def]
  rcases h1 : t ctx with ⟨r1, c1⟩
  cases r1 with
  | Success x => simp
  | Failure e =>
    rcases h2 : u c1 with ⟨r2, c2⟩
    cases r2 <;> simp [h2]

/-- C8: Lifting is the identity on leaf behaviour: a context function is a
transaction value whose run simply applies it, and lifting the ok leaf,
which returns Success x without touching the context, runs to Success x
with the context unchanged. -/
theorem lift_identity {Ctx T E : Type} (f : Ctx → Outcome T E × Ctx) (x : T) (ctx : Ctx) :
    Tx.run (lift f) ctx = f ctx ∧
      Tx.run (lift (ok x : Tx Ctx T E)) ctx = (Outcome.Success x, ctx) :=
  ⟨rfl, rfl⟩

/-- C5: for every combinator, the free-function form and the postfix
method form build transaction values with the same run behaviour on every
context (the free functions return the closure that the corresponding
struct's run implements, so the two agree definitionally). -/
theorem free_method_agree {Ctx T U E E2 : Type}
    (t t2 t3 t4 : Tx Ctx T E) (ctx : Ctx)
    (fm : T → U) (fat : T → Tx Ctx U E) (fth : Outcome T E → Tx Ctx U E)
    (foe : E → Tx Ctx T E) (fme : E → E2) (ftm : T → Outcome U E)
    (fr : E → T) (ftr : E → Outcome T E2) (fa : T → E) (fta : T → Outcome T E) :
    Tx.run (map t fm) ctx = Tx.run (Tx.map t fm) ctx ∧
    Tx.run (and_then t fat) ctx = Tx.run (Tx.and_then t fat) ctx ∧
    Tx.run (then_ t fth) ctx = Tx.run (Tx.then_ t fth) ctx ∧
    Tx.run (or_else t foe) ctx = Tx.run (Tx.or_else t foe) ctx ∧
    Tx.run (join t t2) ctx = Tx.run (Tx.join t t2) ctx ∧
    Tx.run (join3 t t2 t3) ctx = Tx.run (Tx.join3 t t2 t3) ctx ∧
    Tx.run (join4 t t2 t3 t4) ctx = Tx.run (Tx.join4 t t2 t3 t4) ctx ∧
    Tx.run (map_err t fme) ctx = Tx.run (Tx.map_err t fme) ctx ∧
    Tx.run (try_map t ftm) ctx = Tx.run (Tx.try_map t ftm) ctx ∧
    Tx.run (recover t fr) ctx = Tx.run (Tx.recover t fr) ctx ∧
    Tx.run (try_recover t ftr) ctx = Tx.run (Tx.try_recover t ftr) ctx ∧
    Tx.run (abort t fa) ctx = Tx.run (Tx.abort t fa) ctx ∧
    Tx.run (try_abort t fta) ctx = Tx.run (Tx.try_abort t fta) ctx := by
  refine ⟨rfl, rfl, rfl, rfl, ?_, ?_, ?_, rfl, rfl, rfl, rfl, rfl, rfl⟩
  · simp only [join, Tx.join, lift_def, Tx.run_def]
    rcases h1 : t ctx with ⟨r1, c1⟩
    rcases h2 : t2 c1 with ⟨r2, c2⟩
    cases r1 <;> cases r2 <;> rfl
  · simp only [join3, Tx.join3, lift_def, Tx.run_def]
    rcases h1 : t ctx with ⟨r1, c1⟩
    rcases h2 : t2 c1 with ⟨r2, c2⟩
    rcases h3 : t3 c2 with ⟨r3, c3⟩
    cases r1 <;> cases r2 <;> cases r3 <;> rfl
  · simp only [join4, Tx.join4, lift_def, Tx.run_def]
    rcases h1 : t ctx with ⟨r1, c1⟩
    rcases h2 : t2 c1 with ⟨r2, c2⟩
    rcases h3 : t3 c2 with ⟨r3, c3⟩
    rcases h4 : t4 c3 with ⟨r4, c4⟩
    cases r1 <;> cases r2 <;> cases r3 <;> cases r4 <;> rfl

/-- C2: join runs both sources sequentially left-to-right on the same
context, the later source executing even when the earlier one failed
(witnessed by the final context); both Success give Success of the pair
and otherwise the leftmost Failure is returned; join3 and join4 behave
the same way over three and four sources. -/
theorem join_family_spec {Ctx T U V W E : Type}
    (tx1 : Tx Ctx T E) (tx2 : Tx Ctx U E) (tx3 : Tx Ctx V E) (tx4 : Tx Ctx W E)
    (ctx : Ctx) :
    (∀ t u c1 c2, Tx.run tx1 ctx = (Outcome.Success t, c1) →
        Tx.run tx2 c1 = (Outcome.Success u, c2) →
        Tx.run (join tx1 tx2) ctx = (Outcome.Success (t, u), c2)) ∧
    (∀ e c1, Tx.run tx1 ctx = (Outcome.Failure e, c1) →
        Tx.run (join tx1 tx2) ctx = (Outcome.Failure e, (Tx.run tx2 c1).2)) ∧
    (∀ t c1 e c2, Tx.run tx1 ctx = (Outcome.Success t, c1) →
        Tx.run tx2 c1 = (Outcome.Failure e, c2) →
        Tx.run (join tx1 tx2) ctx = (Outcome.Failure e, c2)) ∧
    (∀ t u v c1 c2 c3, Tx.run tx1 ctx = (Outcome.Success t, c1) →
        Tx.run tx2 c1 = (Outcome.Success u, c2) →
        Tx.run tx3 c2 = (Outcome.Success v, c3) →
        Tx.run (join3 tx1 tx2 tx3) ctx = (Outcome.Success (t, u, v), c3)) ∧
    (∀ e c1, Tx.run tx1 ctx = (Outcome.Failure e, c1) →
        Tx.run (join3 tx1 tx2 tx3) ctx =
          (Outcome.Failure e, (Tx.run tx3 (Tx.run tx2 c1).2).2)) ∧
    (∀ t c1 e c2, Tx.run tx1 ctx = (Outcome.Success t, c1) →
        Tx.run tx2 c1 = (Outcome.Failure e, c2) →
        Tx.run (join3 tx1 tx2 tx3) ctx = (Outcome.Failure e, (Tx.run tx3 c2).2)) ∧
    (∀ t u c1 c2 e c3, Tx.run tx1 ctx = (Outcome.Success t, c1) →
        Tx.run tx2 c1 = (Outcome.Success u, c2) →
        Tx.run tx3 c2 = (Outcome.Failure e, c3) →
        Tx.run (join3 tx1 tx2 tx3) ctx = (Outcome.Failure e, c3)) ∧
    (∀ t u v w c1 c2 c3 c4, Tx.run tx1 ctx = (Outcome.Success t, c1) →
        Tx.run tx2 c1 = (Outcome.Success u, c2) →
        Tx.run tx3 c2 = (Outcome.Success v, c3) →
        Tx.run tx4 c3 = (Outcome.Success w, c4) →
        Tx.run (join4 tx1 tx2 tx3 tx4) ctx = (Outcome.Success (t, u, v, w), c4)) ∧
    (∀ e c1, Tx.run tx1 ctx = (Outcome.Failure e, c1) →
        Tx.run (join4 tx1 tx2 tx3 tx4) ctx =
          (Outcome.Failure e, (Tx.run tx4 (Tx.run tx3 (Tx.run tx2 c1).2).2).2)) ∧
    (∀ t c1 e c2, Tx.run tx1 ctx = (Outcome.Success t, c1) →
        Tx.run tx2 c1 = (Outcome.Failure e, c2) →
        Tx.run (join4 tx1 tx2 tx3 tx4) ctx =
          (Outcome.Failure e, (Tx.run tx4 (Tx.run tx3 c2).2).2)) ∧
    (∀ t u c1 c2 e c3, Tx.run tx1 ctx = (Outcome.Success t, c1) →
        Tx.run tx2 c1 = (Outcome.Success u, c2) →
        Tx.run tx3 c2 = (Outcome.Failure e, c3) →
        Tx.run (join4 tx1 tx2 tx3 tx4) ctx = (Outcome.Failure e, (Tx.run tx4 c3).2)) ∧
    (∀ t u v c1 c2 c3 e c4, Tx.run tx1 ctx = (Outcome.Success t, c1) →
        Tx.run tx2 c1 = (Outcome.Success u, c2) →
        Tx.run tx3 c2 = (Outcome.Success v, c3) →
        Tx.run tx4 c3 = (Outcome.Failure e, c4) →
        Tx.run (join4 tx1 tx2 tx3 tx4) ctx = (Outcome.Failure e, c4)) := by
  refine ⟨?_, ?_, ?_, ?_, ?_, ?_, ?_, ?_, ?_, ?_, ?_, ?_⟩
  · intro t u c1 c2 h1 h2
    simp only [Tx.run_def] at h1 h2
    simp [join, h1, h2]
  · intro e c1 h1
    simp only [Tx.run_def] at h1
    rcases h2 : tx2 c1 with ⟨r2, c2⟩
    cases r2 <;> simp [join, h1, h2]
  · intro t c1 e c2 h1 h2
    simp only [Tx.run_def] at h1 h2
    simp [join, h1, h2]
  · intro t u v c1 c2 c3 h1 h2 h3
    simp only [Tx.run_def] at h1 h2 h3
    simp [join3, h1, h2, h3]
  · intro e c1 h1
    simp only [Tx.run_def] at h1
    rcases h2 : tx2 c1 with ⟨r2, c2⟩
    rcases h3 : tx3 c2 with ⟨r3, c3⟩
    cases r2 <;> cases r3 <;> simp [join3, h1, h2, h3]
  · intro t c1 e c2 h1 h2
    simp only [Tx.run_def] at h1 h2
    rcases h3 : tx3 c2 with ⟨r3, c3⟩
    cases r3 <;> simp [join3, h1, h2, h3]
  · intro t u c1 c2 e c3 h1 h2 h3
    simp only [Tx.run_def] at h1 h2 h3
    simp [join3, h1, h2, h3]
  · intro t u v w c1 c2 c3 c4 h1 h2 h3 h4
    simp only [Tx.run_def] at h1 h2 h3 h4
    simp [join4, h1, h2, h3, h4]
  · intro e c1 h1
    simp only [Tx.run_def] at h1
    rcases h2 : tx2 c1 with ⟨r2, c2⟩
    rcases h3 : tx3 c2 with ⟨r3, c3⟩
    rcases h4 : tx4 c3 with ⟨r4, c4⟩
    cases r2 <;> cases r3 <;> cases r4 <;> simp [join4, h1, h2, h3, h4]
  · intro t c1 e c2 h1 h2
    simp only [Tx.run_def] at h1 h2
    rcases h3 : tx3 c2 with ⟨r3, c3⟩
    rcases h4 : tx4 c3 with ⟨r4, c4⟩
    cases r3 <;> cases r4 <;> simp [join4, h1, h2, h3, h4]
  · intro t u c1 c2 e c3 h1 h2 h3
    simp only [Tx.run_def] at h1 h2 h3
    rcases h4 : tx4 c3 with ⟨r4, c4⟩
    cases r4 <;> simp [join4, h1, h2, h3, h4]
  · intro t u v c1 c2 c3 e c4 h1 h2 h3 h4
    simp only [Tx.run_def] at h1 h2 h3 h4
    simp [join4, h1, h2, h3, h4]

/-- C2 witness: the join law applied to concrete instrumented leaves; the
failing case shows the second source still ran (its mark 1 is on the
final ledger) while the leftmost failure 9 is returned. -/
theorem join_family_spec_witness :
    Tx.run (join emitOk emitOk) [] = (Outcome.Success (1, 1), [1, 1]) ∧
    Tx.run (join emitFail emitOk) [] = (Outcome.Failure 9, [2, 1]) :=
  ⟨(join_family_spec emitOk emitOk emitOk emitOk []).1 1 1 [1] [1, 1] rfl rfl,
   Eq.trans ((join_family_spec emitFail emitOk emitOk emitOk []).2.1 9 [2] rfl) rfl⟩

/-- C3 counterexample: the claim that only or_else, recover and
try_recover can consume an error is false: then is a sequencing
combinator whose continuation receives the whole outcome, so here a
source that fails with 0 composed through then with a continuation that
ignores the outcome runs to Success 7: the error was consumed by a
combinator outside the listed recovery set. -/
theorem then_consumes_error_cx :
    Tx.run (Tx.then_ ((fun ctx => (Outcome.Failure 0, ctx)) : Tx Unit Nat Nat)
        (fun _ => ok 7)) () = (Outcome.Success 7, ()) := rfl

/-- C3 amended: if t runs to Failure e, then t.and_then k runs to exactly
Failure e with the context t left behind, and the result is independent
of k (the continuation is never built or run); besides or_else, recover
and try_recover, the then combinator can also consume an error, since its
continuation is handed the whole outcome, Failure included. -/
theorem and_then_short_circuit {Ctx T U E : Type}
    (t : Tx Ctx T E) (k : T → Tx Ctx U E) (ctx : Ctx) (e : E) (c1 : Ctx)
    (h : Tx.run t ctx = (Outcome.Failure e, c1)) :
    Tx.run (Tx.and_then t k) ctx = (Outcome.Failure e, c1) ∧
    (∀ k2 : T → Tx Ctx U E,
        Tx.run (Tx.and_then t k) ctx = Tx.run (Tx.and_then t k2) ctx) ∧
    (∀ g : Outcome T E → Tx Ctx U E,
        Tx.run (Tx.then_ t g) ctx = Tx.run (g (Outcome.Failure e)) c1) := by
  simp only [Tx.run_def] at h
  refine ⟨?_, ?_, ?_⟩
  · simp [Tx.and_then, h]
  · intro k2
    simp [Tx.and_then, h]
  · intro g
    simp [Tx.then_, h]

/-- C3 witness: the short-circuit law applied to the concrete failing
leaf; the composed transaction returns the original failure 9 and only
the failing leaf's mark 2 is on the ledger, and then_ hands the failure
to its continuation. -/
theorem and_then_short_circuit_witness :
    Tx.run (Tx.and_then emitFail emitK) [] = (Outcome.Failure 9, [2]) ∧
    Tx.run (Tx.then_ emitFail (fun _ => emitOk)) [] = (Outcome.Success 1, [2, 1]) :=
  ⟨(and_then_short_circuit emitFail emitK [] 9 [2] rfl).1,
   Eq.trans ((and_then_short_circuit emitFail emitK [] 9 [2] rfl).2.2
     (fun _ => emitOk)) rfl⟩

/-- C1 (modelled from the spec, the runner being absent from src/): the
runner acquires a transaction from the pool (an acquisition failure is
returned as a Failure), runs the composed value on the acquired handle,
commits on Success t, a commit failure becoming the returned Failure and
otherwise Success t being returned, and on Failure e rolls back, the
rollback outcome being subordinate: Failure e is returned even when
rollback itself fails. -/
theorem run_in_transaction_spec {Ctx E T : Type}
    (pool : TxPool Ctx E) (tx : Tx Ctx T E) :
    (∀ pe, pool.beginTx = Outcome.Failure pe →
        run_in_transaction pool tx = Outcome.Failure pe) ∧
    (∀ h0 t c1 u, pool.beginTx = Outcome.Success h0 →
        Tx.run tx h0 = (Outcome.Success t, c1) →
        pool.commit c1 = Outcome.Success u →
        run_in_transaction pool tx = Outcome.Success t) ∧
    (∀ h0 t c1 ce, pool.beginTx = Outcome.Success h0 →
        Tx.run tx h0 = (Outcome.Success t, c1) →
        pool.commit c1 = Outcome.Failure ce →
        run_in_transaction pool tx = Outcome.Failure ce) ∧
    (∀ h0 e c1, pool.beginTx = Outcome.Success h0 →
        Tx.run tx h0 = (Outcome.Failure e, c1) →
        run_in_transaction pool tx = Outcome.Failure e) ∧
    (∀ h0 e c1 re, pool.beginTx = Outcome.Success h0 →
        Tx.run tx h0 = (Outcome.Failure e, c1) →
        pool.rollback c1 = Outcome.Failure re →
        run_in_transaction pool tx = Outcome.Failure e) := by
  refine ⟨?_, ?_, ?_, ?_, ?_⟩
  · intro pe hb
    simp [run_in_transaction, hb]
  · intro h0 t c1 u hb hr hc
    simp only [Tx.run_def] at hr
    simp [run_in_transaction, hb, hr, hc]
  · intro h0 t c1 ce hb hr hc
    simp only [Tx.run_def] at hr
    simp [run_in_transaction, hb, hr, hc]
  · intro h0 e c1 hb hr
    simp only [Tx.run_def] at hr
    simp [run_in_transaction, hb, hr]
  · intro h0 e c1 re hb hr hrb
    simp only [Tx.run_def] at hr
    simp [run_in_transaction, hb, hr, hrb]

/-- C1 witness: the runner law at concrete pools and leaves: commit path,
failing commit, rollback with a failing rollback never overriding the
leaf failure, and failing acquisition. -/
theorem run_in_transaction_spec_witness :
    run_in_transaction poolOk (ok 3) = Outcome.Success 3 ∧
    run_in_transaction poolBadCommit (ok 3) = Outcome.Failure 7 ∧
    run_in_transaction poolBadRollback failLeaf = Outcome.Failure 4 ∧
    run_in_transaction poolNoAcquire (ok 3) = Outcome.Failure 5 :=
  ⟨(run_in_transaction_spec poolOk (ok 3)).2.1 () 3 () () rfl rfl rfl,
   (run_in_transaction_spec poolBadCommit (ok 3)).2.2.1 () 3 () 7 rfl rfl rfl,
   (run_in_transaction_spec poolBadRollback failLeaf).2.2.2.2 () 4 () 8 rfl rfl rfl,
   (run_in_transaction_spec poolNoAcquire (ok 3)).1 5 rfl⟩

/-- C4 counterexample: the claim that running the same transaction value
more than once is unsupported for every implementation of the transaction
abstraction in the repository is false: Transaction::run in
transaction.rs takes the receiver and the context by shared reference, so
the same with_ctx value runs twice here, succeeding both times. -/
theorem transaction_rerun_cx :
    runTimes 2 (with_ctx (fun _ : Unit => (Outcome.Success 5 : Outcome Nat Nat))) () =
      [Outcome.Success 5, Outcome.Success 5] := rfl

/-- C4 amended: the Tx trait of main.rs consumes its value on run
(one-shot by ownership), but the Transaction trait of transaction.rs
takes the value by shared reference: a with_ctx value may be run any
number of times, every run applying the same wrapped function, so n runs
return n copies of the same outcome. -/
theorem transaction_shared_run {Ctx T E : Type}
    (n : Nat) (w : WithCtx Ctx T E) (ctx : Ctx) :
    runTimes n w ctx = List.replicate n (WithCtx.run w ctx) := by
  induction n with
  | zero => rfl
  | succ m ih => simp [runTimes, ih, List.replicate_succ]

/-- C9: combinators are inert at construction: in this embedding every
combinator is a pure function of its sources that never receives a
context, and this theorem verifies that running the composed value
touches the context only through the scheduled runs of the sources: the
pure-argument combinators (map, map_err, recover, abort, try_map,
try_abort, try_recover) leave exactly the context their source produced;
and_then and or_else thread the source's context into the continuation
they run, or leave it as is when no continuation runs; then_ always hands
the source's context to the continuation; join's final context is the one
left after running the first source and then the second. -/
theorem combinators_effects_only_at_run {Ctx T U E E2 : Type}
    (t : Tx Ctx T E) (ctx : Ctx)
    (f : T → U) (fme : E → E2) (fr : E → T) (fa : T → E)
    (ftm : T → Outcome U E) (fta : T → Outcome T E) (ftr : E → Outcome T E2)
    (k : T → Tx Ctx U E) (g : Outcome T E → Tx Ctx U E) (foe : E → Tx Ctx T E)
    (t2 : Tx Ctx U E) :
    (Tx.run (Tx.map t f) ctx).2 = (Tx.run t ctx).2 ∧
    (Tx.run (Tx.map_err t fme) ctx).2 = (Tx.run t ctx).2 ∧
    (Tx.run (Tx.recover t fr) ctx).2 = (Tx.run t ctx).2 ∧
    (Tx.run (Tx.abort t fa) ctx).2 = (Tx.run t ctx).2 ∧
    (Tx.run (Tx.try_map t ftm) ctx).2 = (Tx.run t ctx).2 ∧
    (Tx.run (Tx.try_abort t fta) ctx).2 = (Tx.run t ctx).2 ∧
    (Tx.run (Tx.try_recover t ftr) ctx).2 = (Tx.run t ctx).2 ∧
    (∀ x c1, Tx.run t ctx = (Outcome.Success x, c1) →
        Tx.run (Tx.and_then t k) ctx = Tx.run (k x) c1) ∧
    (∀ e c1, Tx.run t ctx = (Outcome.Failure e, c1) →
        Tx.run (Tx.and_then t k) ctx = (Outcome.Failure e, c1)) ∧
    (Tx.run (Tx.then_ t g) ctx = Tx.run (g (Tx.run t ctx).1) (Tx.run t ctx).2) ∧
    (∀ x c1, Tx.run t ctx = (Outcome.Success x, c1) →
        Tx.run (Tx.or_else t foe) ctx = (Outcome.Success x, c1)) ∧
    (∀ e c1, Tx.run t ctx = (Outcome.Failure e, c1) →
        Tx.run (Tx.or_else t foe) ctx = Tx.run (foe e) c1) ∧
    ((Tx.run (join t t2) ctx).2 = (Tx.run t2 (Tx.run t ctx).2).2) := by
  refine ⟨?_, ?_, ?_, ?_, ?_, ?_, ?_, ?_, ?_, ?_, ?_, ?_, ?_⟩
  · rcases h : t ctx with ⟨r, c⟩
    cases r <;> simp [Tx.map, h]
  · rcases h : t ctx with ⟨r, c⟩
    cases r <;> simp [Tx.map_err, h]
  · rcases h : t ctx with ⟨r, c⟩
    cases r <;> simp [Tx.recover, h]
  · rcases h : t ctx with ⟨r, c⟩
    cases r <;> simp [Tx.abort, h]
  · rcases h : t ctx with ⟨r, c⟩
    cases r <;> simp [Tx.try_map, h]
  · rcases h : t ctx with ⟨r, c⟩
    cases r <;> simp [Tx.try_abort, h]
  · rcases h : t ctx with ⟨r, c⟩
    cases r <;> simp [Tx.try_recover, h]
  · intro x c1 h
    simp only [Tx.run_def] at h
    simp [Tx.and_then, h]
  · intro e c1 h
    simp only [Tx.run_def] at h
    simp [Tx.and_then, h]
  · rcases h : t ctx with ⟨r, c⟩
    simp [Tx.then_, h]
  · intro x c1 h
    simp only [Tx.run_def] at h
    simp [Tx.or_else, h]
  · intro e c1 h
    simp only [Tx.run_def] at h
    simp [Tx.or_else, h]
  · rcases h1 : t ctx with ⟨r1, c1⟩
    rcases h2 : t2 c1 with ⟨r2, c2⟩
    cases r1 <;> cases r2 <;> simp [join, h1, h2]

/-- C9 witness: the effect law at concrete instrumented leaves: the
sequencing combinators leave exactly the ledger their scheduled source
runs produced. -/
theorem combinators_effects_only_at_run_witness :
    Tx.run (Tx.and_then emitOk emitK) [] = (Outcome.Success 2, [1, 3]) ∧
    Tx.run (Tx.or_else emitFail emitK) [] = (Outcome.Success 10, [2, 3]) :=
  ⟨Eq.trans ((combinators_effects_only_at_run emitOk [] (fun x => x) (fun e => e)
      (fun e => e) (fun x => x) (fun x => Outcome.Success x) (fun x => Outcome.Success x)
      (fun e => Outcome.Failure e) emitK (fun _ => emitOk) emitK
      emitOk).2.2.2.2.2.2.2.1 1 [1] rfl) rfl,
   Eq.trans ((combinators_effects_only_at_run emitFail [] (fun x => x) (fun e => e)
      (fun e => e) (fun x => x) (fun x => Outcome.Success x) (fun x => Outcome.Success x)
      (fun e => Outcome.Failure e) emitK (fun _ => emitOk) emitK
      emitOk).2.2.2.2.2.2.2.2.2.2.2.1 9 [2] rfl) rfl⟩

/-- C10: the postfix methods join, join3 and join4 transcribe the Rust
bounds Item = Self::Item, so their type is the equal-payload restriction
of the free functions (a heterogeneous join is constructible only through
the free functions and the structs whose run they share); on that common
homogeneous domain the method and free forms run identically, and the
free join of sources with distinct payload types Nat and Bool yields the
pair carrying both payload types. -/
theorem join_method_restriction {Ctx T E : Type} (t u v w : Tx Ctx T E) (ctx : Ctx) :
    Tx.run (Tx.join t u) ctx = Tx.run (join t u) ctx ∧
    Tx.run (Tx.join3 t u v) ctx = Tx.run (join3 t u v) ctx ∧
    Tx.run (Tx.join4 t u v w) ctx = Tx.run (join4 t u v w) ctx ∧
    Tx.run (join (ok 3 : Tx Unit Nat Nat) (ok true : Tx Unit Bool Nat)) () =
      (Outcome.Success (3, true), ()) := by
  refine ⟨?_, ?_, ?_, rfl⟩
  · simp only [Tx.join, join, lift_def, Tx.run_def]
    rcases h1 : t ctx with ⟨r1, c1⟩
    rcases h2 : u c1 with ⟨r2, c2⟩
    cases r1 <;> cases r2 <;> rfl
  · simp only [Tx.join3, join3, lift_def, Tx.run_def]
    rcases h1 : t ctx with ⟨r1, c1⟩
    rcases h2 : u c1 with ⟨r2, c2⟩
    rcases h3 : v c2 with ⟨r3, c3⟩
    cases r1 <;> cases r2 <;> cases r3 <;> rfl
  · simp only [Tx.join4, join4, lift_def, Tx.run_def]
    rcases h1 : t ctx with ⟨r1, c1⟩
    rcases h2 : u c1 with ⟨r2, c2⟩
    rcases h3 : v c2 with ⟨r3, c3⟩
    rcases h4 : w c3 with ⟨r4, c4⟩
    cases r1 <;> cases r2 <;> cases r3 <;> cases r4 <;> rfl

end SqlxTest
